import Mathlib

/-!
Verification of the request-execution core of an in-browser API sandbox.

The development shallowly embeds the data model (src/lib/types.ts), the
variable-substitution engine and the transport executor of the api-client
service, the validation service, the request pipeline of the main component,
the auth editor's type switch, the history recorder and the import/merge
path.  External effects (the network call, wall-clock readings) are passed
in as explicit parameters; everything else is translated from the source.
-/

set_option maxRecDepth 4000

namespace ApiSandbox

/-! ## Data model (src/src/lib/types.ts) -/

/-- HTTP method tag (types.ts, HttpMethod). -/
inductive HttpMethod where
  | get | post | put | patch | delete | head | options
deriving DecidableEq, Repr

/-- A key/value row of a query-parameter, header or environment-variable
editor (types.ts, KeyValuePair).  `secret` is an optional masking hint. -/
structure KeyValuePair where
  id : String
  key : String
  value : String
  enabled : Bool
  secret : Option Bool := none
deriving DecidableEq, Repr

/-- Auth type tag (types.ts, AuthConfig.type). -/
inductive AuthType where
  | none | bearer | basic | apiKey | oauth2
deriving DecidableEq, Repr

/-- Bearer payload (types.ts). -/
structure BearerAuth where
  token : String
deriving DecidableEq, Repr

/-- Basic-auth payload (types.ts). -/
structure BasicAuth where
  username : String
  password : String
deriving DecidableEq, Repr

/-- Where an API key is injected (types.ts, apiKey.addTo). -/
inductive ApiKeyAddTo where
  | header | query
deriving DecidableEq, Repr

/-- API-key payload (types.ts). -/
structure ApiKeyAuth where
  key : String
  value : String
  addTo : ApiKeyAddTo
deriving DecidableEq, Repr

/-- OAuth2 placeholder payload (types.ts). -/
structure OAuth2Auth where
  accessToken : Option String
deriving DecidableEq, Repr

/-- Authentication configuration (types.ts, AuthConfig).  The TypeScript
interface has a type tag plus four independently optional payload fields;
the embedding keeps exactly that shape (it is not a sum type in the
source). -/
structure AuthConfig where
  type : AuthType
  bearer : Option BearerAuth := none
  basic : Option BasicAuth := none
  apiKey : Option ApiKeyAuth := none
  oauth2 : Option OAuth2Auth := none
deriving DecidableEq, Repr

/-- Body type tag (types.ts, ApiRequest.bodyType). -/
inductive BodyType where
  | none | json | formUrlencoded
deriving DecidableEq, Repr

/-- A user-authored request definition (types.ts, ApiRequest). -/
structure ApiRequest where
  id : String
  name : String
  method : HttpMethod
  url : String
  queryParams : List KeyValuePair
  headers : List KeyValuePair
  body : String
  bodyType : BodyType
  auth : Option AuthConfig := none
deriving DecidableEq, Repr

/-- Subset of JavaScript values that `JSON.parse` can yield, used for the
`data` field of a response (types.ts declares it as `any`). -/
inductive JsValue where
  | null
  | bool (b : Bool)
  | num (n : Int)
  | str (s : String)
  | arr (elems : List JsValue)
  | obj (fields : List (String × JsValue))

/-- Normalized response shape (types.ts, ApiResponse).  `time` is a
difference of two `Date.now()` readings and is kept as an integer. -/
structure ApiResponse where
  status : Nat
  statusText : String
  headers : List (String × String)
  data : JsValue
  time : Int
  size : Nat
  raw : String

/-- One entry of the history log (types.ts, RequestHistoryItem). -/
structure RequestHistoryItem where
  id : String
  request : ApiRequest
  response : ApiResponse
  timestamp : Int

/-! ## Variable substitution (api-client service, `substituteVariables`)

The source builds `new RegExp("\\{\\{" + key + "\\}\\}", "g")` from each
enabled variable key and runs a global `String.replace` with the variable
value as replacement string.  The embedding compiles that pattern into a
list of single-character atoms: every character of the key becomes a
literal atom except `.`, which JavaScript interprets as
any-character-except-line-terminator.  Keys containing other regex
metacharacters (`\ * + ? ( ) [ ] ^ $ |` and braces) are outside the
modelled fragment; all theorems below either restrict keys to the modelled
fragment or use concrete keys inside it.  The replacement string follows
JavaScript GetSubstitution: dollar escapes for the matched text and the
surrounding context are interpreted, any other dollar stays literal. -/

/-- One atom of the compiled search pattern. -/
inductive Atom where
  | lit (c : Char)
  | anyChar
deriving DecidableEq, Repr

/-- Whether an atom matches one character.  `anyChar` is the JavaScript
dot without the `s` flag: it rejects the four line terminators. -/
def atomMatches : Atom → Char → Bool
  | .lit c, d => c == d
  | .anyChar, d =>
      !(d == '\n' || d == '\r' || d == Char.ofNat 0x2028 || d == Char.ofNat 0x2029)

/-- Match a pattern against a prefix of `s`; on success return the
consumed characters and the remainder. -/
def matchPat : List Atom → List Char → Option (List Char × List Char)
  | [], s => some ([], s)
  | _ :: _, [] => none
  | a :: pat, c :: s =>
    if atomMatches a c then
      match matchPat pat s with
      | some (m, r) => some (c :: m, r)
      | none => none
    else none

/-- Expand a JavaScript replacement string (GetSubstitution): `$$` is a
dollar, `$&` the matched text, a dollar-backquote the text before the
match, a dollar-quote the text after it; any other dollar is literal.
The compiled pattern has no capture groups, so `$n` stays literal. -/
def expandRepl (matched pre post : List Char) : List Char → List Char
  | [] => []
  | '$' :: d :: tl2 =>
    if d = '$' then '$' :: expandRepl matched pre post tl2
    else if d = '&' then matched ++ expandRepl matched pre post tl2
    else if d = Char.ofNat 96 then pre ++ expandRepl matched pre post tl2
    else if d = '\'' then post ++ expandRepl matched pre post tl2
    else '$' :: expandRepl matched pre post (d :: tl2)
  | c :: tl => c :: expandRepl matched pre post tl

/-- Global regex replace: scan left to right, replace each match and
continue after it (replacement output is not rescanned), copy unmatched
characters.  The pattern is passed with its head atom explicit, so a
match always consumes at least one character; the fuel argument bounds the
number of scanning steps and is structurally decreasing, which keeps the
function kernel-reducible.  Every step consumes at least one input
character, so fuel equal to the input length never runs out. -/
def replGo (a0 : Atom) (pat : List Atom) (repl : List Char) :
    Nat → List Char → List Char → List Char
  | 0, _, _ => []
  | _ + 1, _, [] => []
  | fuel + 1, pre, c :: rest =>
    match matchPat (a0 :: pat) (c :: rest) with
    | some (m, r) =>
        expandRepl m pre r repl ++ replGo a0 pat repl fuel (pre ++ m) r
    | none => c :: replGo a0 pat repl fuel (pre ++ [c]) rest

/-- Compile a variable key: every character is a literal atom except `.`,
the JavaScript any-character class (see the section comment for the
modelled fragment). -/
def keyPattern (key : String) : List Atom :=
  key.data.map (fun c => if c = '.' then Atom.anyChar else Atom.lit c)

/-- The pattern the source compiles for a key: `\{\{key\}\}`. -/
def varPatternTail (key : String) : List Atom :=
  Atom.lit '{' :: (keyPattern key ++ [Atom.lit '}', Atom.lit '}'])

/-- Embeds `str.replace(new RegExp("\\{\\{" + key + "\\}\\}", "g"), value)`. -/
def jsReplaceGlobal (key value s : String) : String :=
  (replGo (Atom.lit '{') (varPatternTail key) value.data s.data.length [] s.data).asString

/-- Embeds `substituteVariables` (api-client service): sequentially apply each
enabled, non-empty-keyed variable as a global regex replace; empty input
is returned unchanged.  The component-local copy in api-sandbox.tsx is the
same transform after looking up the active environment (and behaves as the
identity when no environment is active, i.e. `variables = []`). -/
def substituteVariables (str : String) (vars : List KeyValuePair) : String :=
  if str = "" then str
  else
    vars.foldl
      (fun result v =>
        if v.enabled && v.key != "" then jsReplaceGlobal v.key v.value result
        else result)
      str

/-! ## Literal substitution as the specification describes it

The spec's contract for the engine is purely literal: "replace every
literal occurrence of `{{key}}` (exact key match ...) with its value,
globally".  The following definitions are modelled from those words, to be
compared with the regex-based `substituteVariables` above. -/

/-- Modelled from the spec: one global pass of literal (character for
character) replacement of the non-empty needle `n0 :: ntl`, scanning left
to right, not rescanning replacement output.  Fueled like `replGo`. -/
def litGo (n0 : Char) (ntl repl : List Char) : Nat → List Char → List Char
  | 0, _ => []
  | _ + 1, [] => []
  | fuel + 1, c :: rest =>
    if (n0 :: ntl).isPrefixOf (c :: rest) then
      repl ++ litGo n0 ntl repl fuel (rest.drop ntl.length)
    else c :: litGo n0 ntl repl fuel rest

/-- Modelled from the spec: replace every literal occurrence of `needle`
in `s` by `repl`. -/
def litReplaceAll (needle repl s : String) : String :=
  match needle.data with
  | [] => s
  | n0 :: ntl => (litGo n0 ntl repl.data s.data.length s.data).asString

/-- Modelled from the spec: the substitution contract of section 4.1 —
for each enabled variable with non-empty key, literally replace every
occurrence of the braced key with the value, globally; empty input is
returned unchanged; unmatched tokens are left verbatim (which literal
replacement guarantees by construction). -/
def substituteLiteral (str : String) (vars : List KeyValuePair) : String :=
  if str = "" then str
  else
    vars.foldl
      (fun result v =>
        if v.enabled && v.key != "" then
          litReplaceAll ("\x7b\x7b" ++ v.key ++ "\x7d\x7d") v.value result
        else result)
      str

/-- A character with no special meaning inside a RegExp pattern built from
a string (`/` is not special there).  Keys made of these characters are
matched literally by the compiled pattern. -/
def regexSafeChar (c : Char) : Bool :=
  !(c == '.' || c == '\\' || c == '*' || c == '+' || c == '?' || c == '(' ||
    c == ')' || c == '[' || c == ']' || c == '{' || c == '}' || c == '^' ||
    c == '$' || c == '|')

/-- A key whose characters are all regex-neutral. -/
def regexSafeKey (key : String) : Bool := key.data.all regexSafeChar

/-- A replacement value with no dollar character, hence no GetSubstitution
escape. -/
def noDollar (s : String) : Bool := s.data.all (fun c => c != '$')

/-! ## Validation service (src/src/services/validation-service.ts)

`sanitizeUrl` runs five global case-insensitive regex removals and a trim.
Three of the patterns are fixed literal strings; the script-tag pattern
matches from an opening `<script` (with a word boundary) to the first
closing `</script>`, and the event-handler pattern matches `on`, one or
more word characters, optional whitespace and `=`.  All five are embedded
as direct scanners below; fuel plays the same role as in `replGo`. -/

/-- Embeds `String.prototype.trim`, implemented over the character list so that
the kernel can evaluate it.  (JavaScript trims Unicode whitespace; every
input considered here carries only ASCII whitespace.) -/
def jsTrim (s : String) : String :=
  ((s.data.dropWhile Char.isWhitespace).reverse.dropWhile
    Char.isWhitespace).reverse.asString

/-- Embeds `String.prototype.toLowerCase`, over the character list for the same
reason. -/
def lowerStr (s : String) : String := (s.data.map Char.toLower).asString

/-- Case-insensitive prefix test (the source's regexes carry the `i`
flag). -/
def ciPrefix : List Char → List Char → Bool
  | [], _ => true
  | _ :: _, [] => false
  | a :: as, b :: bs => (a.toLower == b.toLower) && ciPrefix as bs

/-- Remove every case-insensitive occurrence of the non-empty needle
`n0 :: ntl`, scanning left to right without rescanning (a global
`replace(..., '')` with a literal pattern). -/
def ciRemoveGo (n0 : Char) (ntl : List Char) : Nat → List Char → List Char
  | 0, _ => []
  | _ + 1, [] => []
  | fuel + 1, c :: rest =>
    if ciPrefix (n0 :: ntl) (c :: rest) then ciRemoveGo n0 ntl fuel (rest.drop ntl.length)
    else c :: ciRemoveGo n0 ntl fuel rest

/-- Embeds `s.replace(new RegExp(needle-literal, "gi"), "")`. -/
def removeAllCI (needle : String) (s : List Char) : List Char :=
  match needle.data with
  | [] => s
  | n0 :: ntl => ciRemoveGo n0 ntl s.length s

/-- JavaScript `\w`. -/
def isWordChar (c : Char) : Bool := c.isAlphanum || c == '_'

/-- Index of the first case-insensitive occurrence of the needle. -/
def findCI (n0 : Char) (ntl : List Char) : List Char → Option Nat
  | [] => none
  | c :: rest =>
    if ciPrefix (n0 :: ntl) (c :: rest) then some 0
    else (findCI n0 ntl rest).map (· + 1)

/-- One global pass of the script-tag removal regex: an occurrence starts
at a case-insensitive `<script` followed by a non-word character (the
`\b`) and extends to the first case-insensitive `</script>`; without a
closing tag there is no match. -/
def stripScriptGo : Nat → List Char → List Char
  | 0, _ => []
  | _ + 1, [] => []
  | fuel + 1, c :: rest =>
    if ciPrefix ['<', 's', 'c', 'r', 'i', 'p', 't'] (c :: rest) then
      let after := (c :: rest).drop 7
      let boundaryOk :=
        match after with
        | [] => false
        | d :: _ => !isWordChar d
      if boundaryOk then
        match findCI '<' ['/', 's', 'c', 'r', 'i', 'p', 't', '>'] after with
        | some j => stripScriptGo fuel (after.drop (j + 9))
        | none => c :: stripScriptGo fuel rest
      else c :: stripScriptGo fuel rest
    else c :: stripScriptGo fuel rest

/-- Longest prefix run of word characters, returned with its length. -/
def dropWordRun : List Char → Nat × List Char
  | [] => (0, [])
  | c :: rest =>
    if isWordChar c then
      let (n, r) := dropWordRun rest
      (n + 1, r)
    else (0, c :: rest)

/-- Longest prefix run of whitespace. -/
def dropSpaceRun : List Char → List Char
  | [] => []
  | c :: rest => if c.isWhitespace then dropSpaceRun rest else c :: rest

/-- One global pass of the `on\w+\s*=` removal: because `=` is neither a
word character nor whitespace, the regex can only match with maximal runs,
so the scan is deterministic. -/
def stripOnHandlersGo : Nat → List Char → List Char
  | 0, _ => []
  | _ + 1, [] => []
  | fuel + 1, c :: rest =>
    if c.toLower == 'o' then
      match rest with
      | [] => [c]
      | d :: rest2 =>
        if d.toLower == 'n' then
          let (wn, afterW) := dropWordRun rest2
          if wn ≥ 1 then
            match dropSpaceRun afterW with
            | '=' :: afterEq => stripOnHandlersGo fuel afterEq
            | _ => c :: stripOnHandlersGo fuel rest
          else c :: stripOnHandlersGo fuel rest
        else c :: stripOnHandlersGo fuel rest
    else c :: stripOnHandlersGo fuel rest

/-- Embeds `sanitizeUrl` (validation-service): strip script tags, the
`javascript:`, `data:text/html` and `vbscript:` schemes and inline event
handlers, then trim.  (JavaScript trims Unicode whitespace; the embedding
trims ASCII whitespace, which agrees on every input considered here.) -/
def sanitizeUrl (url : String) : String :=
  if url = "" then ""
  else
    let s1 := stripScriptGo url.data.length url.data
    let s2 := removeAllCI "javascript:" s1
    let s3 := removeAllCI "data:text/html" s2
    let s4 := removeAllCI "vbscript:" s3
    let s5 := stripOnHandlersGo s4.length s4
    jsTrim s5.asString

/-! ### URL parsing

`validateUrl` calls the platform URL constructor.  The embedding models
the fragment of WHATWG URL parsing the service relies on: a string parses
only when it starts with a valid scheme followed by `:`, and a special
non-file scheme additionally needs a non-empty, space-free authority.
This is enough to classify every URL the theorems below touch. -/

/-- Parsed absolute URL: lowercased scheme and the text after the colon. -/
structure URLModel where
  scheme : String
  rest : String
deriving DecidableEq, Repr

/-- First character of a scheme. -/
def isSchemeStart (c : Char) : Bool := c.isAlpha

/-- Subsequent characters of a scheme. -/
def isSchemeChar (c : Char) : Bool := c.isAlphanum || c == '+' || c == '-' || c == '.'

/-- Scan for the scheme delimiter `:`. -/
def splitSchemeGo (acc : List Char) : List Char → Option (List Char × List Char)
  | [] => none
  | ':' :: rest => some (acc, rest)
  | c :: rest => if isSchemeChar c then splitSchemeGo (acc ++ [c]) rest else none

/-- Split `scheme:rest`, requiring a well-formed scheme. -/
def splitScheme : List Char → Option (List Char × List Char)
  | [] => none
  | c :: rest => if isSchemeStart c then splitSchemeGo [c] rest else none

/-- Schemes the WHATWG parser treats as special. -/
def specialScheme (sch : String) : Bool :=
  sch == "http" || sch == "https" || sch == "ws" || sch == "wss" ||
    sch == "ftp" || sch == "file"

/-- The modelled `new URL(s)`: `none` means the constructor throws. -/
def parseURL (s : String) : Option URLModel :=
  let t := jsTrim s
  match splitScheme t.data with
  | none => none
  | some (sch, rest) =>
    let scheme := (sch.map Char.toLower).asString
    if specialScheme scheme && scheme != "file" then
      let afterSlashes := rest.dropWhile (fun c => c == '/')
      let authority := afterSlashes.takeWhile (fun c => !(c == '/' || c == '?' || c == '#'))
      if authority.isEmpty || authority.contains ' ' then none
      else some ⟨scheme, rest.asString⟩
    else some ⟨scheme, rest.asString⟩

/-- Embeds `validateUrl` (validation-service): non-blank, parseable, and the
protocol is `http:` or `https:`. -/
def validateUrl (url : String) : Bool :=
  if url = "" || jsTrim url = "" then false
  else
    match parseURL url with
    | some u => u.scheme == "http" || u.scheme == "https"
    | none => false

/-- Embeds `sanitizeHeaderValue` (validation-service): drop CR and LF, drop NUL,
then trim. -/
def sanitizeHeaderValue (value : String) : String :=
  if value = "" then ""
  else
    jsTrim ((value.data.filter (fun c => !(c == '\r' || c == '\n'))).filter
      (fun c => c != Char.ofNat 0)).asString

/-- The characters `sanitizeHeaderKey` keeps: `[a-zA-Z0-9\-_]`. -/
def isHeaderKeyChar (c : Char) : Bool := c.isAlphanum || c == '-' || c == '_'

/-- Embeds `sanitizeHeaderKey` (validation-service): keep only
alphanumerics, hyphens and underscores, then trim (a no-op after the
filter). -/
def sanitizeHeaderKey (key : String) : String :=
  if key = "" then "" else jsTrim (key.data.filter isHeaderKeyChar).asString

/-! ## Flat JSON objects

`JSON.parse` appears twice in the pipeline: on the form-urlencoded body
(which the spec requires to be "a flat JSON object") and on the response
body (with a fallback to the raw text).  The modelled fragment is a flat
object with string keys and string values and no escape sequences; `none`
models a parse exception.  Inputs outside the fragment are treated as
parse failures. -/

/-- JSON insignificant whitespace. -/
def isJsonWs (c : Char) : Bool := c == ' ' || c == '\t' || c == '\n' || c == '\r'

/-- Scan a JSON string body up to the closing quote (no escapes in the
modelled fragment). -/
def parseJStringGo (acc : List Char) : List Char → Option (String × List Char)
  | [] => none
  | c :: rest =>
    if c = '"' then some (acc.asString, rest)
    else if c = '\\' then none
    else parseJStringGo (acc ++ [c]) rest

/-- Parse a JSON string literal. -/
def parseJString : List Char → Option (String × List Char)
  | c :: rest => if c = '"' then parseJStringGo [] rest else none
  | [] => none

/-- Parse the members of a flat string-valued object after the opening
brace, including the closing brace and trailing whitespace. -/
def parseJPairsGo : Nat → List Char → List (String × String) →
    Option (List (String × String))
  | 0, _, _ => none
  | fuel + 1, s, acc =>
    match parseJString (s.dropWhile isJsonWs) with
    | none => none
    | some (k, rest1) =>
      match rest1.dropWhile isJsonWs with
      | ':' :: rest2 =>
        match parseJString (rest2.dropWhile isJsonWs) with
        | none => none
        | some (v, rest3) =>
          match rest3.dropWhile isJsonWs with
          | ',' :: rest4 => parseJPairsGo fuel rest4 (acc ++ [(k, v)])
          | '}' :: rest5 =>
            if (rest5.dropWhile isJsonWs).isEmpty then some (acc ++ [(k, v)])
            else none
          | _ => none
      | _ => none

/-- Modelled from the spec: `JSON.parse` of a flat JSON object with
string values (section 4.4 step 5). -/
def parseJsonFlat (s : String) : Option (List (String × String)) :=
  match s.data.dropWhile isJsonWs with
  | '{' :: rest =>
    match rest.dropWhile isJsonWs with
    | '}' :: rest2 => if (rest2.dropWhile isJsonWs).isEmpty then some [] else none
    | _ => parseJPairsGo (s.data.length + 1) rest []
  | _ => none

/-! ## Request pipeline of the main component (api-sandbox.tsx,
`handleSendRequest` lines 170-234)

The pre-fetch part of the handler is deterministic in the request and the
active environment's variables; it is embedded as a function into an
outcome type.  `invalidUrl` is the early validation return (destructive
toast, no network call); `buildFailure` is an exception thrown inside the
`try` before `fetch` (only the form-body `JSON.parse` can throw there once
the URL has been validated); `built` carries exactly what is passed to
`fetch`. -/

/-- The URL handed to fetch: parsed base plus appended search params. -/
structure BuiltUrl where
  base : URLModel
  query : List (String × String)
deriving DecidableEq, Repr

/-- The request body handed to fetch. -/
inductive BuiltBody where
  | jsonText (s : String)
  | formParams (pairs : List (String × String))
deriving DecidableEq, Repr

/-- Outcome of the pre-fetch pipeline. -/
inductive BuildResult where
  | invalidUrl
  | buildFailure (message : String)
  | built (url : BuiltUrl) (headers : List (String × String)) (body : Option BuiltBody)
deriving DecidableEq, Repr

/-- Embeds `Headers.has`, which is case-insensitive in header names. -/
def hasHeaderCI (hs : List (String × String)) (name : String) : Bool :=
  hs.any (fun kv => lowerStr kv.1 == lowerStr name)

/-- The header-building loop of `handleSendRequest`: enabled pairs with a
non-empty key are substituted, the key sanitized, the value sanitized, and
the pair appended only when the sanitized key is non-empty. -/
def buildHeaders (hs : List KeyValuePair) (vars : List KeyValuePair) :
    List (String × String) :=
  (hs.filter (fun h => h.enabled && h.key != "")).foldl
    (fun acc h =>
      let key := sanitizeHeaderKey (substituteVariables h.key vars)
      let value := sanitizeHeaderValue (substituteVariables h.value vars)
      if key != "" then acc ++ [(key, value)] else acc)
    []

/-- The per-pair outcome of the header-building loop: the sanitized pair
when the sanitized key is non-empty, nothing otherwise. -/
def mkHeaderPair (vars : List KeyValuePair) (h : KeyValuePair) :
    Option (String × String) :=
  let k := sanitizeHeaderKey (substituteVariables h.key vars)
  if k != "" then some (k, sanitizeHeaderValue (substituteVariables h.value vars))
  else Option.none

/-- The pre-fetch pipeline of `handleSendRequest`: substitute and sanitize
the URL, reject unless it validates, append substituted enabled query
parameters, build the sanitized header set, then build the body (skipped
for GET/HEAD), defaulting `Content-Type` when absent.  The auth
configuration of the request is never consulted. -/
def buildSendAttempt (request : ApiRequest) (vars : List KeyValuePair) : BuildResult :=
  let processedUrl := substituteVariables request.url vars
  let cleanedUrl := sanitizeUrl processedUrl
  if !(validateUrl cleanedUrl) then .invalidUrl
  else
    match parseURL cleanedUrl with
    | Option.none => .buildFailure "Invalid URL"
    | some base =>
      let query := (request.queryParams.filter (fun p => p.enabled && p.key != "")).map
        (fun p => (substituteVariables p.key vars, substituteVariables p.value vars))
      let headers := buildHeaders request.headers vars
      if request.method != .get && request.method != .head then
        if request.bodyType == .json && request.body != "" then
          let bodyText := substituteVariables request.body vars
          let headers2 :=
            if !(hasHeaderCI headers "Content-Type") then
              headers ++ [("Content-Type", "application/json")]
            else headers
          .built ⟨base, query⟩ headers2 (some (.jsonText bodyText))
        else if request.bodyType == .formUrlencoded && request.body != "" then
          match parseJsonFlat (substituteVariables request.body vars) with
          | Option.none => .buildFailure "Unexpected token in JSON"
          | some pairs =>
            let headers2 :=
              if !(hasHeaderCI headers "Content-Type") then
                headers ++ [("Content-Type", "application/x-www-form-urlencoded")]
              else headers
            .built ⟨base, query⟩ headers2 (some (.formParams pairs))
        else .built ⟨base, query⟩ headers Option.none
      else .built ⟨base, query⟩ headers Option.none

/-! ## Authentication utilities (auth-utils, bundled with types.ts) -/

/-- Embeds `Headers.set`: case-insensitive replace-or-append.  (Duplicate-name
combining of the platform Headers object is not modelled; no claim
exercises it.) -/
def headersSet (hs : List (String × String)) (name value : String) :
    List (String × String) :=
  if hs.any (fun kv => lowerStr kv.1 == lowerStr name) then
    hs.map (fun kv => if lowerStr kv.1 == lowerStr name then (kv.1, value) else kv)
  else hs ++ [(name, value)]

/-- Embeds `URLSearchParams.set`: replace the first occurrence (dropping later
duplicates) or append; case-sensitive. -/
def searchParamsSet : List (String × String) → String → String →
    List (String × String)
  | [], name, value => [(name, value)]
  | kv :: rest, name, value =>
    if kv.1 == name then (name, value) :: rest.filter (fun p => p.1 != name)
    else kv :: searchParamsSet rest name value

/-- The base64 alphabet character at a sextet. -/
def base64Char (n : Nat) : Char :=
  ("ABCDEFGHIJKLMNOPQRSTUVWXYZabcdefghijklmnopqrstuvwxyz0123456789+/").data.getD n 'A'

/-- Base64-encode a byte list, three bytes a step, `=`-padded. -/
def base64Go : List Nat → List Char
  | [] => []
  | [a] => [base64Char (a / 4), base64Char ((a % 4) * 16), '=', '=']
  | [a, b] =>
      [base64Char (a / 4), base64Char ((a % 4) * 16 + b / 16),
        base64Char ((b % 16) * 4), '=']
  | a :: b :: c :: rest =>
      base64Char (a / 4) :: base64Char ((a % 4) * 16 + b / 16) ::
        base64Char ((b % 16) * 4 + c / 64) :: base64Char (c % 64) :: base64Go rest

/-- Embeds `btoa` on a latin1 string (code points are the bytes; inputs beyond
latin1 are outside the modelled fragment). -/
def btoa (s : String) : String := (base64Go (s.data.map Char.toNat)).asString

/-- Embeds `applyAuthentication` (auth-utils): inject credentials for the
configured scheme into the header/query containers, substituting
variables into each credential; a no-op for an absent config, type
`none`, or missing credential parts. -/
def applyAuthentication (auth : Option AuthConfig)
    (headers queryParams : List (String × String))
    (subst : String → String) :
    List (String × String) × List (String × String) :=
  match auth with
  | Option.none => (headers, queryParams)
  | some a =>
    match a.type with
    | .none => (headers, queryParams)
    | .bearer =>
      match a.bearer with
      | some b =>
        if b.token != "" then
          (headersSet headers "Authorization" ("Bearer " ++ subst b.token), queryParams)
        else (headers, queryParams)
      | Option.none => (headers, queryParams)
    | .basic =>
      match a.basic with
      | some b =>
        if b.username != "" && b.password != "" then
          (headersSet headers "Authorization"
            ("Basic " ++ btoa (subst b.username ++ ":" ++ subst b.password)),
            queryParams)
        else (headers, queryParams)
      | Option.none => (headers, queryParams)
    | .apiKey =>
      match a.apiKey with
      | some k =>
        if k.key != "" && k.value != "" then
          match k.addTo with
          | .header => (headersSet headers (subst k.key) (subst k.value), queryParams)
          | .query => (headers, searchParamsSet queryParams (subst k.key) (subst k.value))
        else (headers, queryParams)
      | Option.none => (headers, queryParams)
    | .oauth2 =>
      match a.oauth2 with
      | some o =>
        match o.accessToken with
        | some t =>
          if t != "" then
            (headersSet headers "Authorization" ("Bearer " ++ subst t), queryParams)
          else (headers, queryParams)
        | Option.none => (headers, queryParams)
      | Option.none => (headers, queryParams)

/-- Embeds `handleTypeChange` (auth-editor): the type selector emits a fresh
config with the chosen tag and every payload field cleared; the previous
config is not consulted at all. -/
def handleTypeChange (t : AuthType) : AuthConfig :=
  { type := t, bearer := Option.none, basic := Option.none,
    apiKey := Option.none, oauth2 := Option.none }

/-! ## History recorder and import path -/

/-- The record step of `handleSendRequest` (api-sandbox.tsx):
`setHistory(prev => [newHistoryItem, ...prev].slice(0, 50))`. -/
def recordHistory (item : RequestHistoryItem) (prev : List RequestHistoryItem) :
    List RequestHistoryItem :=
  (item :: prev).take 50

/-- The history branch of `handleImportData` (api-sandbox.tsx): a present
imported history array replaces the log unchanged; an absent field leaves
the log alone. -/
def applyImportHistory (imported : Option (List RequestHistoryItem))
    (current : List RequestHistoryItem) : List RequestHistoryItem :=
  match imported with
  | some h => h
  | Option.none => current

/-- Stable insertion into a descending-by-timestamp list; together with
the fold below this is the JavaScript stable sort with comparator
`(a, b) => b.timestamp - a.timestamp`. -/
def insertByDesc (x : RequestHistoryItem) :
    List RequestHistoryItem → List RequestHistoryItem
  | [] => [x]
  | y :: ys => if y.timestamp < x.timestamp then x :: y :: ys else y :: insertByDesc x ys

/-- Sort newest-first by timestamp (stable). -/
def sortByTimestampDesc (l : List RequestHistoryItem) : List RequestHistoryItem :=
  l.foldl (fun acc x => insertByDesc x acc) []

/-- Drop entries whose identifier was already seen (keeping the first
occurrence, which after sorting is the newest). -/
def dedupByIdGo (seen : List String) :
    List RequestHistoryItem → List RequestHistoryItem
  | [] => []
  | x :: xs =>
    if x.id ∈ seen then dedupByIdGo seen xs
    else x :: dedupByIdGo (x.id :: seen) xs

/-- Embeds `mergeHistory` (import-service): combine existing and imported
history, sort newest first, drop duplicate identifiers, cap at
`maxItems` (the caller uses the default 100). -/
def mergeHistory (existing imported : List RequestHistoryItem) (maxItems : Nat) :
    List RequestHistoryItem :=
  (dedupByIdGo [] (sortByTimestampDesc (existing ++ imported))).take maxItems

/-! ## Transport executor and request registry (api-client service)

`sendRequest` registers an AbortController under the request id, runs the
try block (URL construction, query/header/body assembly — unsanitized in
this service — then `fetch`), and in the catch block re-throws timeouts
(`AbortError`) and cross-origin-looking failures (`TypeError` whose
message contains `Failed to fetch`) while converting every other
exception into a status-0 response.  The registry is reduced to its key
set; the fetch outcome and the two `Date.now()` readings are parameters. -/

/-- A JavaScript exception as the catch block inspects it. -/
structure JsError where
  name : String
  isTypeError : Bool
  message : String
deriving DecidableEq, Repr

/-- Outcome of the fetch call, supplied by the environment. -/
inductive FetchOutcome where
  | success (status : Nat) (statusText : String)
      (headers : List (String × String)) (bodyText : String)
  | failure (e : JsError)
deriving DecidableEq, Repr

/-- Embeds `haystack.includes(needle)`. -/
def strIncludes (haystack needle : String) : Bool :=
  (List.range (haystack.data.length + 1)).any
    (fun i => needle.data.isPrefixOf (haystack.data.drop i))

/-- Embeds `activeRequests.set id controller`, reduced to the key set. -/
def registrySet (id : String) (st : List String) : List String :=
  if st.contains id then st else st ++ [id]

/-- Embeds `activeRequests.delete id`. -/
def registryDelete (id : String) (st : List String) : List String :=
  st.filter (fun x => x != id)

/-- Pre-fetch part of the executor's try block: substitute the URL and
parse it (`new URL` throws a TypeError on failure), collect substituted
enabled query parameters and headers (appended raw here — this service
does not sanitize), and build the body, defaulting `Content-Type`.  A
form body that fails to parse throws a SyntaxError. -/
def buildTransportRequest (request : ApiRequest) (vars : List KeyValuePair) :
    Except JsError (BuiltUrl × List (String × String) × Option BuiltBody) :=
  let processedUrl := substituteVariables request.url vars
  match parseURL processedUrl with
  | Option.none => .error ⟨"TypeError", true, "Invalid URL"⟩
  | some base =>
    let query := (request.queryParams.filter (fun p => p.enabled && p.key != "")).map
      (fun p => (substituteVariables p.key vars, substituteVariables p.value vars))
    let headers := (request.headers.filter (fun h => h.enabled && h.key != "")).map
      (fun h => (substituteVariables h.key vars, substituteVariables h.value vars))
    if request.method != .get && request.method != .head then
      if request.bodyType == .json && request.body != "" then
        let bodyText := substituteVariables request.body vars
        let headers2 :=
          if !(hasHeaderCI headers "Content-Type") then
            headers ++ [("Content-Type", "application/json")]
          else headers
        .ok (⟨base, query⟩, headers2, some (.jsonText bodyText))
      else if request.bodyType == .formUrlencoded && request.body != "" then
        match parseJsonFlat (substituteVariables request.body vars) with
        | Option.none => .error ⟨"SyntaxError", false, "Unexpected token in JSON"⟩
        | some pairs =>
          let headers2 :=
            if !(hasHeaderCI headers "Content-Type") then
              headers ++ [("Content-Type", "application/x-www-form-urlencoded")]
            else headers
          .ok (⟨base, query⟩, headers2, some (.formParams pairs))
      else .ok (⟨base, query⟩, headers, Option.none)
    else .ok (⟨base, query⟩, headers, Option.none)

/-- The response-data rule of types.ts: the JSON-parsed body when
parseable (in the modelled flat fragment), else the raw string. -/
def parseOrRaw (body : String) : JsValue :=
  match parseJsonFlat body with
  | some pairs => JsValue.obj (pairs.map (fun kv => (kv.1, JsValue.str kv.2)))
  | Option.none => JsValue.str body

/-- Plain-object assignment `m[k] = v`. -/
def objSet (m : List (String × String)) (k v : String) : List (String × String) :=
  if m.any (fun kv => kv.1 == k) then
    m.map (fun kv => if kv.1 == k then (k, v) else kv)
  else m ++ [(k, v)]

/-- Copy every response header into a plain map. -/
def copyHeaders (hs : List (String × String)) : List (String × String) :=
  hs.foldl (fun acc kv => objSet acc kv.1 kv.2) []

/-- The catch block's re-throw classification, with the exact messages
thrown: `AbortError` becomes the timeout error, a `TypeError` containing
`Failed to fetch` becomes the CORS/network error; `none` means the catch
block falls through to the generic status-0 response. -/
def rethrownMessage (e : JsError) : Option String :=
  if e.name == "AbortError" then some "Request timeout exceeded"
  else if e.isTypeError && strIncludes e.message "Failed to fetch" then
    some "CORS policy blocked the request or network error occurred"
  else Option.none

/-- The generic error response the catch block builds when it does not
re-throw. -/
def errorApiResponse (e : JsError) (startTime endTime : Int) : ApiResponse :=
  { status := 0
    statusText := "Client Error"
    headers := []
    data := JsValue.obj
      [("error", JsValue.str "Failed to fetch"), ("details", JsValue.str e.message)]
    time := endTime - startTime
    size := 0
    raw := e.message }

/-- Embeds `sendRequest` (api-client service).  Returns the promise outcome —
`Except.error msg` is a rejected promise, i.e. the function threw `msg` to
its caller — together with the registry state after the call.  Note the
source deletes the registry entry after the success response and after the
generic error response, but the two re-throw statements exit the catch
block before reaching the delete. -/
def sendRequest (request : ApiRequest) (vars : List KeyValuePair)
    (fetchResult : FetchOutcome) (startTime endTime : Int)
    (st : List String) : Except String ApiResponse × List String :=
  let st1 := registrySet request.id st
  let tryResult : Except JsError ApiResponse :=
    match buildTransportRequest request vars with
    | .error e => .error e
    | .ok _ =>
      match fetchResult with
      | .success status statusText respHeaders bodyText =>
        .ok { status := status
              statusText := statusText
              headers := copyHeaders respHeaders
              data := parseOrRaw bodyText
              time := endTime - startTime
              size := bodyText.utf8ByteSize
              raw := bodyText }
      | .failure e => .error e
  match tryResult with
  | .ok resp => (.ok resp, registryDelete request.id st1)
  | .error e =>
    match rethrownMessage e with
    | some msg => (.error msg, st1)
    | Option.none =>
      (.ok (errorApiResponse e startTime endTime), registryDelete request.id st1)

/-- Embeds `cancelRequest`: abort and remove when present; report whether an
entry existed. -/
def cancelRequest (requestId : String) (st : List String) : Bool × List String :=
  if st.contains requestId then (true, registryDelete requestId st) else (false, st)

/-- Embeds `cancelAllRequests`: abort everything and clear the map. -/
def cancelAllRequests (_st : List String) : List String := []

/-- Embeds `getActiveRequestCount`. -/
def getActiveRequestCount (st : List String) : Nat := st.length

/-- Embeds `isRequestActive`. -/
def isRequestActive (requestId : String) (st : List String) : Bool :=
  st.contains requestId

/-- Modelled from the spec: a header value with only CR, LF and NUL
removed — the transform the builder claim attributes to inserted header
values (the source's `sanitizeHeaderValue` additionally trims
whitespace). -/
def crlfNulStrip (value : String) : String :=
  ((value.data.filter (fun c => !(c == '\r' || c == '\n'))).filter
    (fun c => c != Char.ofNat 0)).asString

/-! ## Concrete fixtures used by witnesses and counterexamples -/

/-- A minimal GET request at a fixed valid URL. -/
def sampleGetRequest : ApiRequest :=
  { id := "req-1", name := "r", method := .get, url := "https://example.com",
    queryParams := [], headers := [], body := "", bodyType := .none,
    auth := Option.none }

/-- A GET request carrying a bearer auth configuration. -/
def bearerRequest : ApiRequest :=
  { sampleGetRequest with
    id := "req-bearer"
    auth := some { type := .bearer, bearer := some ⟨"tok"⟩ } }

/-- A request whose URL is not a URL. -/
def invalidUrlRequest : ApiRequest :=
  { sampleGetRequest with
    id := "req-bad"
    url := "not a url" }

/-- A fixed response body for history fixtures. -/
def sampleResponse : ApiResponse :=
  { status := 200, statusText := "OK", headers := [], data := JsValue.null,
    time := 1, size := 0, raw := "" }

/-- Numbered history entries with distinct identifiers and timestamps. -/
def mkHistItem (n : Nat) : RequestHistoryItem :=
  { id := "hist" ++ toString n, request := sampleGetRequest,
    response := sampleResponse, timestamp := (n : Int) }

/-- The log obtained by recording entries 0 to 50 into an empty log. -/
def historyAfter51 : List RequestHistoryItem :=
  (List.range 51).foldl (fun log n => recordHistory (mkHistItem n) log) []

theorem not_mem_of_noDollar {s : String} (h : noDollar s = true) : '$' ∉ s.data := by
  simp only [noDollar, List.all_eq_true, bne_iff_ne, ne_eq] at h
  intro hm
  exact h _ hm rfl

theorem expandRepl_of_no_dollar (matched pre post : List Char) :
    ∀ repl : List Char, '$' ∉ repl → expandRepl matched pre post repl = repl := by
  intro repl
  induction repl with
  | nil => intro _; rfl
  | cons c tl ih =>
    intro h
    have hc : c ≠ '$' := fun hh => h (hh ▸ List.mem_cons_self _ _)
    have htl : '$' ∉ tl := fun hh => h (List.mem_cons_of_mem _ hh)
    cases tl with
    | nil => simp [expandRepl, hc]
    | cons d tl2 => simp [expandRepl, hc, ih htl]

/-- An all-literal pattern matches exactly the literal needle prefix. -/
theorem matchPat_lit (needle : List Char) : ∀ s : List Char,
    matchPat (needle.map Atom.lit) s =
      if needle.isPrefixOf s then some (needle, s.drop needle.length) else none := by
  induction needle with
  | nil => intro s; simp [matchPat, List.isPrefixOf]
  | cons n ntl ih =>
    intro s
    cases s with
    | nil => simp [matchPat, List.isPrefixOf]
    | cons c s =>
      simp only [List.map_cons, matchPat, atomMatches, List.isPrefixOf,
        List.length_cons, List.drop_succ_cons, ih s]
      by_cases hnc : (n == c) = true
      · have hnceq : n = c := eq_of_beq hnc
        subst hnceq
        by_cases hp : ntl.isPrefixOf s
        · simp [hp]
        · simp [hp]
      · simp [hnc]

theorem replGo_step_some {a0 : Atom} {pat : List Atom} {repl : List Char}
    {fuel : Nat} {pre c rest m r}
    (h : matchPat (a0 :: pat) (c :: rest) = some (m, r)) :
    replGo a0 pat repl (fuel + 1) pre (c :: rest) =
      expandRepl m pre r repl ++ replGo a0 pat repl fuel (pre ++ m) r := by
  simp [replGo, h]

theorem replGo_step_none {a0 : Atom} {pat : List Atom} {repl : List Char}
    {fuel : Nat} {pre c rest}
    (h : matchPat (a0 :: pat) (c :: rest) = none) :
    replGo a0 pat repl (fuel + 1) pre (c :: rest) =
      c :: replGo a0 pat repl fuel (pre ++ [c]) rest := by
  simp [replGo, h]

/-- On an all-literal pattern with a dollar-free replacement, the regex
replace of the source coincides with the spec's literal replace, for every
fuel value and scanned prefix. -/
theorem replGo_eq_litGo (n0 : Char) (ntl repl : List Char) (hrep : '$' ∉ repl) :
    ∀ (fuel : Nat) (pre s : List Char),
      replGo (Atom.lit n0) (ntl.map Atom.lit) repl fuel pre s =
        litGo n0 ntl repl fuel s := by
  intro fuel
  induction fuel with
  | zero => intro pre s; rfl
  | succ fuel ih =>
    intro pre s
    cases s with
    | nil => rfl
    | cons c rest =>
      have hm := matchPat_lit (n0 :: ntl) (c :: rest)
      simp only [List.map_cons, List.length_cons, List.drop_succ_cons] at hm
      by_cases hp : (n0 :: ntl).isPrefixOf (c :: rest)
      · rw [if_pos hp] at hm
        rw [replGo_step_some hm,
          expandRepl_of_no_dollar _ _ _ _ hrep, ih]
        simp [litGo, hp]
      · rw [if_neg hp] at hm
        rw [replGo_step_none hm, ih]
        simp [litGo, hp]

/-- For a regex-neutral key the compiled pattern is all-literal. -/
theorem keyPattern_of_safe {key : String} (hk : regexSafeKey key = true) :
    keyPattern key = key.data.map Atom.lit := by
  unfold keyPattern
  apply List.map_congr_left
  intro c hc
  have hsafe : regexSafeChar c = true := by
    simp only [regexSafeKey, List.all_eq_true] at hk
    exact hk c hc
  have : c ≠ '.' := by
    intro hdot
    subst hdot
    simp [regexSafeChar] at hsafe
  simp [this]

/-- The regex replace performed by the source equals the spec's literal
replace whenever the key is regex-neutral and the value has no dollar. -/
theorem jsReplaceGlobal_eq_lit (key value s : String)
    (hk : regexSafeKey key = true) (hv : noDollar value = true) :
    jsReplaceGlobal key value s = litReplaceAll ("\x7b\x7b" ++ key ++ "\x7d\x7d") value s := by
  have hvd := not_mem_of_noDollar hv
  have hdata : ("\x7b\x7b" ++ key ++ "\x7d\x7d").data = '{' :: ('{' :: (key.data ++ ['}', '}'])) := by
    simp [String.data_append]
  have hpat : varPatternTail key = ('{' :: (key.data ++ ['}', '}'])).map Atom.lit := by
    simp [varPatternTail, keyPattern_of_safe hk]
  unfold jsReplaceGlobal litReplaceAll
  rw [hdata]
  rw [hpat, replGo_eq_litGo _ _ _ hvd]

theorem foldl_ext_mem {α β : Type _} {f g : α → β → α} {l : List β}
    (h : ∀ a b, b ∈ l → f a b = g a b) : ∀ a : α, l.foldl f a = l.foldl g a := by
  induction l with
  | nil => intro a; rfl
  | cons x xs ih =>
    intro a
    simp only [List.foldl_cons]
    rw [h a x (List.mem_cons_self _ _)]
    exact ih (fun a b hb => h a b (List.mem_cons_of_mem _ hb)) _

/-! ## Claims C4 and C5: substitution semantics -/

/-- C4, counterexample: the claim says a token `{{k}}` occurring only
inside the substituted value of another variable is never itself replaced,
regardless of the order of the variables.  With variables
`a -> "{{b}}", b -> "2"` in that order and input `{{a}}`, the engine
returns `"2"`: the `{{b}}` token introduced by substituting `a` was
replaced by the later variable `b`, so the output is not `"{{b}}"`. -/
theorem substitution_reexpands_later_variables_cex :
    substituteVariables "{{a}}"
        [⟨"v1", "a", "{{b}}", true, none⟩, ⟨"v2", "b", "2", true, none⟩] = "2" ∧
    ("2" : String) ≠ "{{b}}" :=
  ⟨rfl, by decide⟩

/-- C4 (amended): substitution is one sequential pass over the variable
list; a variable's substituted value is rescanned by variables later in
the list but not by the same or earlier variables.  Hence a token `{{b}}`
occurring only inside the value of variable `a` is left verbatim when `b`
precedes `a` in the list, and is replaced with `b`'s value when `b`
follows `a` (stated for dollar-free values, where a replacement value is
inserted literally). -/
theorem substitution_sequential_order (v2 : String) (hv2 : noDollar v2 = true) :
    substituteVariables "{{a}}"
        [⟨"v1", "b", v2, true, none⟩, ⟨"v2", "a", "{{b}}", true, none⟩] = "{{b}}" ∧
    substituteVariables "{{a}}"
        [⟨"v1", "a", "{{b}}", true, none⟩, ⟨"v2", "b", v2, true, none⟩] = v2 := by
  refine ⟨rfl, ?_⟩
  have h1 : substituteVariables "{{a}}"
      [⟨"v1", "a", "{{b}}", true, none⟩, ⟨"v2", "b", v2, true, none⟩]
      = (expandRepl "{{b}}".data [] [] v2.data ++ []).asString := rfl
  rw [h1, expandRepl_of_no_dollar _ _ _ _ (not_mem_of_noDollar hv2),
    List.append_nil]
  rfl

/-- Witness for the amended C4 theorem at the concrete value `"2"`. -/
theorem substitution_sequential_order_witness :
    substituteVariables "{{a}}"
        [⟨"v1", "b", "2", true, none⟩, ⟨"v2", "a", "{{b}}", true, none⟩] = "{{b}}" ∧
    substituteVariables "{{a}}"
        [⟨"v1", "a", "{{b}}", true, none⟩, ⟨"v2", "b", "2", true, none⟩] = "2" :=
  substitution_sequential_order "2" (by decide)

/-- C5, counterexample: the claim says only literal occurrences of
`{{k}}` are replaced, with no pattern interpretation of the characters of
`k`.  But the source compiles the key into a regex, so the key `"."`
matches any single character: on input `{{x}}` — which contains no literal
occurrence of `{{.}}` — the engine still substitutes and returns `"V"`,
whereas literal replacement (the claimed behavior, `substituteLiteral`)
leaves `{{x}}` verbatim. -/
theorem substitution_dot_key_cex :
    substituteVariables "{{x}}" [⟨"v1", ".", "V", true, none⟩] = "V" ∧
    substituteLiteral "{{x}}" [⟨"v1", ".", "V", true, none⟩] = "{{x}}" ∧
    ("V" : String) ≠ "{{x}}" :=
  ⟨rfl, rfl, by decide⟩

/-- C5 (amended): for variables whose keys contain only regex-neutral
characters (no pattern interpretation possible) and whose values contain
no dollar escape, substitution equals the spec's literal global
replacement `substituteLiteral`: exactly the literal occurrences of
`{{key}}` are replaced, globally, and all other text — including unmatched
`{{...}}` tokens — is left verbatim, with no error (both functions are
total). -/
theorem substitution_literal_on_safe_keys (str : String) (vars : List KeyValuePair)
    (h : ∀ v ∈ vars, v.enabled = true → v.key ≠ "" →
      regexSafeKey v.key = true ∧ noDollar v.value = true) :
    substituteVariables str vars = substituteLiteral str vars := by
  unfold substituteVariables substituteLiteral
  by_cases hs : str = ""
  · simp [hs]
  · rw [if_neg hs, if_neg hs]
    apply foldl_ext_mem
    intro acc v hv
    by_cases he : (v.enabled && v.key != "") = true
    · have he2 := he
      simp only [Bool.and_eq_true, bne_iff_ne, ne_eq] at he2
      rw [if_pos he, if_pos he,
        jsReplaceGlobal_eq_lit _ _ _ (h v hv he2.1 he2.2).1 (h v hv he2.1 he2.2).2]
    · rw [if_neg he, if_neg he]

/-- Witness for the amended C5 theorem: a safe key, a matched and an
unmatched token. -/
theorem substitution_literal_on_safe_keys_witness :
    substituteVariables "x{{a}}y {{zz}}" [⟨"v1", "a", "1", true, none⟩] =
      substituteLiteral "x{{a}}y {{zz}}" [⟨"v1", "a", "1", true, none⟩] :=
  substitution_literal_on_safe_keys "x{{a}}y {{zz}}"
    [⟨"v1", "a", "1", true, none⟩] (by decide)

/-! ## Claim C8: switching the auth type -/

/-- C8: `handleTypeChange` builds the successor config from the chosen
tag alone — it does not even read the previous config — with all four
payload fields cleared, so no bearer, basic, apiKey or oauth2 payload
survives a switch between any two types. -/
theorem auth_type_switch_clears_payloads (t : AuthType) :
    (handleTypeChange t).type = t ∧
    (handleTypeChange t).bearer = Option.none ∧
    (handleTypeChange t).basic = Option.none ∧
    (handleTypeChange t).apiKey = Option.none ∧
    (handleTypeChange t).oauth2 = Option.none :=
  ⟨rfl, rfl, rfl, rfl, rfl⟩

/-! ## Claim C3: authentication injection in the send pipeline -/

/-- C3: the send pipeline never applies the Authentication Injector.  A
request configured with bearer token `tok` is dispatched with an empty
header set — no `Authorization` header at all — although
`applyAuthentication` (which `handleSendRequest` never calls) would have
produced one. -/
theorem auth_never_applied_in_pipeline :
    buildSendAttempt bearerRequest [] =
      BuildResult.built ⟨⟨"https", "//example.com"⟩, []⟩ [] Option.none ∧
    (applyAuthentication bearerRequest.auth [] []
        (fun s => substituteVariables s [])).1 =
      [("Authorization", "Bearer tok")] :=
  ⟨rfl, rfl⟩

/-! ## Claim C7: pre-dispatch URL validation -/

/-- C7: whenever the substituted-and-sanitized URL fails the `http(s)`
validation, the pipeline returns the invalid-url outcome — the
synchronous early return with the destructive toast — and in particular
never reaches the `built` outcome that feeds `fetch`. -/
theorem builder_rejects_invalid_url (request : ApiRequest) (vars : List KeyValuePair)
    (h : validateUrl (sanitizeUrl (substituteVariables request.url vars)) = false) :
    buildSendAttempt request vars = BuildResult.invalidUrl := by
  unfold buildSendAttempt
  simp [h]

/-- Witness for C7 at the spec's own example URL `"not a url"`. -/
theorem builder_rejects_invalid_url_witness :
    buildSendAttempt invalidUrlRequest [] = BuildResult.invalidUrl :=
  builder_rejects_invalid_url invalidUrlRequest [] (by decide)

/-! ## Claim C10: header sanitization in the builder -/

/-- C10, counterexample: the claim describes the inserted value as the
CR/LF/NUL-stripped value, but `sanitizeHeaderValue` also trims
whitespace: the pair `("X-Test", " x ")` is inserted as `("X-Test", "x")`,
while CR/LF/NUL-stripping alone would leave `" x "` unchanged. -/
theorem header_value_trimmed_cex :
    buildHeaders [⟨"h1", "X-Test", " x ", true, none⟩] [] = [("X-Test", "x")] ∧
    crlfNulStrip " x " = " x " ∧
    ("x" : String) ≠ " x " :=
  ⟨rfl, rfl, by decide⟩

theorem foldl_append_filterMap {α β : Type _} (f : α → Option β) :
    ∀ (l : List α) (init : List β),
      l.foldl (fun acc h => acc ++ (f h).toList) init = init ++ l.filterMap f := by
  intro l
  induction l with
  | nil => intro init; simp
  | cons x xs ih =>
    intro init
    simp only [List.foldl_cons]
    rw [ih]
    cases hf : f x with
    | none => simp [List.filterMap_cons, hf]
    | some c => simp [List.filterMap_cons, hf]

/-- C10 (amended): the built header set is exactly the enabled, non-empty
pairs mapped through substitution and sanitization, keeping only pairs
whose sanitized key is non-empty — a pair whose key sanitizes to the empty
string is silently omitted, with no error, and an inserted pair carries
the sanitized key and the CR/LF/NUL-stripped, whitespace-trimmed value.
Consequently every inserted header has a non-empty name. -/
theorem built_headers_sanitized (vars hs : List KeyValuePair) :
    buildHeaders hs vars =
      (hs.filter (fun h => h.enabled && h.key != "")).filterMap (mkHeaderPair vars) ∧
    (∀ kv ∈ buildHeaders hs vars, kv.1 ≠ "") := by
  have hmain : buildHeaders hs vars =
      (hs.filter (fun h => h.enabled && h.key != "")).filterMap (mkHeaderPair vars) := by
    unfold buildHeaders
    have hstep : ∀ (a : List (String × String)) (b : KeyValuePair),
        b ∈ hs.filter (fun h => h.enabled && h.key != "") →
        (let key := sanitizeHeaderKey (substituteVariables b.key vars)
         let value := sanitizeHeaderValue (substituteVariables b.value vars)
         if key != "" then a ++ [(key, value)] else a) =
        a ++ (mkHeaderPair vars b).toList := by
      intro a b _
      unfold mkHeaderPair
      by_cases hk : (sanitizeHeaderKey (substituteVariables b.key vars) != "") = true
      · simp [hk]
      · simp only [Bool.not_eq_true] at hk
        simp [hk]
    calc (hs.filter (fun h => h.enabled && h.key != "")).foldl
          (fun acc h =>
            let key := sanitizeHeaderKey (substituteVariables h.key vars)
            let value := sanitizeHeaderValue (substituteVariables h.value vars)
            if key != "" then acc ++ [(key, value)] else acc) []
        = (hs.filter (fun h => h.enabled && h.key != "")).foldl
            (fun acc h => acc ++ (mkHeaderPair vars h).toList) [] :=
          foldl_ext_mem hstep []
      _ = [] ++ (hs.filter (fun h => h.enabled && h.key != "")).filterMap
            (mkHeaderPair vars) :=
          foldl_append_filterMap (mkHeaderPair vars)
            (hs.filter (fun h => h.enabled && h.key != "")) []
      _ = (hs.filter (fun h => h.enabled && h.key != "")).filterMap
            (mkHeaderPair vars) := List.nil_append _
  refine ⟨hmain, ?_⟩
  intro kv hkv
  rw [hmain] at hkv
  rcases List.mem_filterMap.mp hkv with ⟨h, _, hsome⟩
  unfold mkHeaderPair at hsome
  by_cases hk : (sanitizeHeaderKey (substituteVariables h.key vars) != "") = true
  · simp only [hk, if_pos] at hsome
    cases hsome
    simpa using hk
  · simp only [Bool.not_eq_true] at hk
    simp only [hk] at hsome
    cases hsome

/-- Witness for the amended C10 theorem: a concrete inserted pair has a
non-empty name. -/
theorem built_headers_sanitized_witness :
    (("X-Api-Key", "v") : String × String).1 ≠ "" :=
  (built_headers_sanitized [] [⟨"h1", "X-Api-Key", "v", true, none⟩]).2
    ("X-Api-Key", "v") (by decide)

/-! ## Claim C6: the bounded history log -/

/-- C6: `record` prepends the new item (the head is always the newest
entry) and truncates to the most recent 50, without error; recording
entries 0..50 into an empty log leaves 50 entries, the newest first and
the oldest (`hist0`) gone. -/
theorem history_record_prepends_and_caps :
    (∀ (item : RequestHistoryItem) (prev : List RequestHistoryItem),
      (recordHistory item prev).head? = some item ∧
      (recordHistory item prev).length = min (prev.length + 1) 50) ∧
    historyAfter51.length = 50 ∧
    "hist0" ∉ historyAfter51.map (fun x => x.id) ∧
    historyAfter51.head? = some (mkHistItem 50) := by
  refine ⟨fun item prev => ⟨rfl, ?_⟩, by decide, by decide, rfl⟩
  simp only [recordHistory, List.length_take, List.length_cons]
  omega

/-! ## Claim C9: import path of the history log -/

theorem mem_insertByDesc {x y : RequestHistoryItem} {l : List RequestHistoryItem} :
    y ∈ insertByDesc x l ↔ y = x ∨ y ∈ l := by
  induction l with
  | nil => simp [insertByDesc]
  | cons z zs ih =>
    simp only [insertByDesc]
    by_cases hz : z.timestamp < x.timestamp
    · simp [hz]
    · rw [if_neg hz]
      simp only [List.mem_cons, ih]
      tauto

theorem pairwise_insertByDesc {x : RequestHistoryItem} {l : List RequestHistoryItem}
    (h : l.Pairwise (fun a b => b.timestamp ≤ a.timestamp)) :
    (insertByDesc x l).Pairwise (fun a b => b.timestamp ≤ a.timestamp) := by
  induction l with
  | nil => simp [insertByDesc]
  | cons z zs ih =>
    rcases List.pairwise_cons.mp h with ⟨hz, hzs⟩
    simp only [insertByDesc]
    by_cases hlt : z.timestamp < x.timestamp
    · rw [if_pos hlt]
      refine List.pairwise_cons.mpr ⟨?_, h⟩
      intro y hy
      rcases List.mem_cons.mp hy with rfl | hy
      · exact le_of_lt hlt
      · exact le_trans (hz y hy) (le_of_lt hlt)
    · rw [if_neg hlt]
      refine List.pairwise_cons.mpr ⟨?_, ih hzs⟩
      intro y hy
      rcases mem_insertByDesc.mp hy with rfl | hy
      · exact le_of_not_lt hlt
      · exact hz y hy

theorem pairwise_sortByTimestampDesc (l : List RequestHistoryItem) :
    (sortByTimestampDesc l).Pairwise (fun a b => b.timestamp ≤ a.timestamp) := by
  have hgen : ∀ (l acc : List RequestHistoryItem),
      acc.Pairwise (fun a b => b.timestamp ≤ a.timestamp) →
      (l.foldl (fun acc x => insertByDesc x acc) acc).Pairwise
        (fun a b => b.timestamp ≤ a.timestamp) := by
    intro l
    induction l with
    | nil => intro acc h; exact h
    | cons x xs ih =>
      intro acc h
      exact ih _ (pairwise_insertByDesc h)
  exact hgen l [] (by simp)

theorem dedupByIdGo_sublist (l : List RequestHistoryItem) :
    ∀ seen : List String, (dedupByIdGo seen l).Sublist l := by
  induction l with
  | nil => intro seen; simp [dedupByIdGo]
  | cons x xs ih =>
    intro seen
    simp only [dedupByIdGo]
    by_cases hx : x.id ∈ seen
    · rw [if_pos hx]
      exact List.Sublist.cons _ (ih seen)
    · rw [if_neg hx]
      exact List.Sublist.cons₂ _ (ih _)

theorem dedupByIdGo_nodup (l : List RequestHistoryItem) : ∀ seen : List String,
    ((dedupByIdGo seen l).map (fun x => x.id)).Nodup ∧
      ∀ x ∈ dedupByIdGo seen l, x.id ∉ seen := by
  induction l with
  | nil => intro seen; simp [dedupByIdGo]
  | cons x xs ih =>
    intro seen
    simp only [dedupByIdGo]
    by_cases hx : x.id ∈ seen
    · rw [if_pos hx]
      exact ih seen
    · rw [if_neg hx]
      obtain ⟨hnd, hmem⟩ := ih (x.id :: seen)
      refine ⟨?_, ?_⟩
      · simp only [List.map_cons, List.nodup_cons]
        refine ⟨?_, hnd⟩
        intro hmm
        rcases List.mem_map.mp hmm with ⟨y, hy, hyid⟩
        exact hmem y hy (hyid ▸ List.mem_cons_self _ _)
      · intro y hy
        rcases List.mem_cons.mp hy with rfl | hy
        · exact hx
        · intro hsy
          exact hmem y hy (List.mem_cons_of_mem _ hsy)

/-- C9: the import path is not bounded by the 50-entry record cap.
`handleImportData` installs the imported history array unchanged, with no
truncation, so a 60-entry import leaves a 60-entry log; the dialog's
`mergeHistory` deduplicates by identifier, orders newest-first by
timestamp, and caps at its own limit of 100 entries. -/
theorem import_replaces_and_merge_caps_at_100 :
    (∀ (h cur : List RequestHistoryItem), applyImportHistory (some h) cur = h) ∧
    (∀ (e i : List RequestHistoryItem),
      ((mergeHistory e i 100).map (fun x => x.id)).Nodup ∧
      (mergeHistory e i 100).Pairwise (fun a b => b.timestamp ≤ a.timestamp) ∧
      (mergeHistory e i 100).length ≤ 100) ∧
    applyImportHistory (some ((List.range 60).map mkHistItem)) [] =
      (List.range 60).map mkHistItem ∧
    50 < (applyImportHistory (some ((List.range 60).map mkHistItem)) []).length := by
  refine ⟨fun h cur => rfl, fun e i => ⟨?_, ?_, ?_⟩, rfl, by decide⟩
  · unfold mergeHistory
    have hnd := (dedupByIdGo_nodup (sortByTimestampDesc (e ++ i)) []).1
    rw [List.map_take]
    exact hnd.sublist (List.take_sublist _ _)
  · unfold mergeHistory
    have hp := (pairwise_sortByTimestampDesc (e ++ i)).sublist
      (dedupByIdGo_sublist (sortByTimestampDesc (e ++ i)) [])
    exact hp.sublist (List.take_sublist _ _)
  · unfold mergeHistory
    simp [List.length_take]

/-! ## Claims C1 and C2: the transport executor -/

theorem rethrownMessage_cases {e : JsError} {m : String}
    (h : rethrownMessage e = some m) :
    m = "Request timeout exceeded" ∨
      m = "CORS policy blocked the request or network error occurred" := by
  unfold rethrownMessage at h
  by_cases h1 : (e.name == "AbortError") = true
  · rw [if_pos h1] at h
    exact Or.inl (Option.some.inj h).symm
  · rw [if_neg h1] at h
    by_cases h2 : (e.isTypeError && strIncludes e.message "Failed to fetch") = true
    · rw [if_pos h2] at h
      exact Or.inr (Option.some.inj h).symm
    · rw [if_neg h2] at h
      cases h

theorem buildTransportRequest_error_not_rethrown {request : ApiRequest}
    {vars : List KeyValuePair} {e : JsError}
    (h : buildTransportRequest request vars = .error e) :
    rethrownMessage e = Option.none := by
  unfold buildTransportRequest at h
  dsimp only at h
  cases hp : parseURL (substituteVariables request.url vars) with
  | none =>
    rw [hp] at h
    simp only [Except.error.injEq] at h
    subst h
    decide
  | some base =>
    rw [hp] at h
    repeat' split at h
    all_goals
      first
      | (simp only [Except.error.injEq] at h; subst h; decide)
      | simp at h

theorem sendRequest_eq_of_buildError {request : ApiRequest}
    {vars : List KeyValuePair} {e : JsError}
    (hb : buildTransportRequest request vars = .error e)
    (fetchResult : FetchOutcome) (startTime endTime : Int) (st : List String) :
    sendRequest request vars fetchResult startTime endTime st =
      match rethrownMessage e with
      | some msg => (Except.error msg, registrySet request.id st)
      | Option.none =>
        (Except.ok (errorApiResponse e startTime endTime),
          registryDelete request.id (registrySet request.id st)) := by
  unfold sendRequest
  rw [hb]

theorem sendRequest_eq_of_fetchFailure {request : ApiRequest}
    {vars : List KeyValuePair} {b : BuiltUrl × List (String × String) × Option BuiltBody}
    (hb : buildTransportRequest request vars = .ok b)
    (e : JsError) (startTime endTime : Int) (st : List String) :
    sendRequest request vars (.failure e) startTime endTime st =
      match rethrownMessage e with
      | some msg => (Except.error msg, registrySet request.id st)
      | Option.none =>
        (Except.ok (errorApiResponse e startTime endTime),
          registryDelete request.id (registrySet request.id st)) := by
  unfold sendRequest
  rw [hb]

theorem sendRequest_eq_of_fetchSuccess {request : ApiRequest}
    {vars : List KeyValuePair} {b : BuiltUrl × List (String × String) × Option BuiltBody}
    (hb : buildTransportRequest request vars = .ok b)
    (status : Nat) (statusText : String) (respHeaders : List (String × String))
    (bodyText : String) (startTime endTime : Int) (st : List String) :
    sendRequest request vars (.success status statusText respHeaders bodyText)
        startTime endTime st =
      (Except.ok
        { status := status
          statusText := statusText
          headers := copyHeaders respHeaders
          data := parseOrRaw bodyText
          time := endTime - startTime
          size := bodyText.utf8ByteSize
          raw := bodyText },
        registryDelete request.id (registrySet request.id st)) := by
  unfold sendRequest
  rw [hb]

/-- C1, counterexample: the claim says the send operation never throws.
But on a timeout-triggered cancellation the fetch rejects with an
`AbortError`, and the catch block re-throws it as the error
`Request timeout exceeded`: the promise rejects, so `sendRequest` does
throw to its caller instead of returning a status-0 response. -/
theorem transport_throws_on_timeout_cex :
    (sendRequest sampleGetRequest []
        (.failure ⟨"AbortError", false, "The user aborted a request."⟩) 0 5 []).1 =
      Except.error "Request timeout exceeded" := rfl

/-- C1 (amended): the send operation re-throws exactly two failure kinds —
a timeout-triggered cancellation (`AbortError`) and a fetch failure whose
signature matches a cross-origin/network block (`TypeError` containing
`Failed to fetch`) — with those fixed messages; every other failure mode
(including pre-fetch URL and body exceptions) is caught and returned as a
normalized ApiResponse with status 0, empty header map, size 0 and
elapsed time computed up to the failure point.  The four conjuncts: only
the two fixed messages can ever be thrown; every non-signature failure is
normalized; a fetch rejection named `AbortError` IS re-thrown as the
timeout error; and a non-abort `TypeError` rejection whose message
contains `Failed to fetch` IS re-thrown as the CORS/network error (the
fetch rejection exists only when the pre-fetch build succeeded, hence the
`Except.ok` hypothesis of the last two parts). -/
theorem transport_error_normalization (request : ApiRequest)
    (vars : List KeyValuePair) (fetchResult : FetchOutcome)
    (startTime endTime : Int) (st : List String) :
    (∀ msg, (sendRequest request vars fetchResult startTime endTime st).1 =
        Except.error msg →
      msg = "Request timeout exceeded" ∨
        msg = "CORS policy blocked the request or network error occurred") ∧
    (∀ e, fetchResult = FetchOutcome.failure e → rethrownMessage e = Option.none →
      ∃ r, (sendRequest request vars fetchResult startTime endTime st).1 =
          Except.ok r ∧
        r.status = 0 ∧ r.headers = [] ∧ r.size = 0 ∧
        r.time = endTime - startTime) ∧
    (∀ e b, fetchResult = FetchOutcome.failure e →
      buildTransportRequest request vars = Except.ok b →
      e.name = "AbortError" →
      (sendRequest request vars fetchResult startTime endTime st).1 =
        Except.error "Request timeout exceeded") ∧
    (∀ e b, fetchResult = FetchOutcome.failure e →
      buildTransportRequest request vars = Except.ok b →
      e.name ≠ "AbortError" → e.isTypeError = true →
      strIncludes e.message "Failed to fetch" = true →
      (sendRequest request vars fetchResult startTime endTime st).1 =
        Except.error "CORS policy blocked the request or network error occurred") := by
  refine ⟨?_, ?_, ?_, ?_⟩
  · intro msg hmsg
    cases hb : buildTransportRequest request vars with
    | error e2 =>
      rw [sendRequest_eq_of_buildError hb fetchResult startTime endTime st,
        buildTransportRequest_error_not_rethrown hb] at hmsg
      simp at hmsg
    | ok b =>
      cases fetchResult with
      | success s1 s2 s3 s4 =>
        rw [sendRequest_eq_of_fetchSuccess hb s1 s2 s3 s4 startTime endTime st]
          at hmsg
        simp at hmsg
      | failure e =>
        cases hre : rethrownMessage e with
        | some m =>
          rw [sendRequest_eq_of_fetchFailure hb e startTime endTime st, hre] at hmsg
          simp only [Except.error.injEq] at hmsg
          subst hmsg
          exact rethrownMessage_cases hre
        | none =>
          rw [sendRequest_eq_of_fetchFailure hb e startTime endTime st, hre] at hmsg
          simp at hmsg
  · intro e hfe hre
    subst hfe
    cases hb : buildTransportRequest request vars with
    | error e2 =>
      refine ⟨errorApiResponse e2 startTime endTime, ?_, rfl, rfl, rfl, rfl⟩
      rw [sendRequest_eq_of_buildError hb (.failure e) startTime endTime st,
        buildTransportRequest_error_not_rethrown hb]
    | ok b =>
      refine ⟨errorApiResponse e startTime endTime, ?_, rfl, rfl, rfl, rfl⟩
      rw [sendRequest_eq_of_fetchFailure hb e startTime endTime st, hre]
  · intro e b hfe hb hname
    subst hfe
    rw [sendRequest_eq_of_fetchFailure hb e startTime endTime st]
    have hre : rethrownMessage e = some "Request timeout exceeded" := by
      unfold rethrownMessage
      rw [if_pos (by simp [hname])]
    rw [hre]
  · intro e b hfe hb hname htype hmsg
    subst hfe
    rw [sendRequest_eq_of_fetchFailure hb e startTime endTime st]
    have hre : rethrownMessage e =
        some "CORS policy blocked the request or network error occurred" := by
      unfold rethrownMessage
      rw [if_neg (by simp [hname]), if_pos (by simp [htype, hmsg])]
    rw [hre]

/-- Witness for the amended C1 theorem: a generic failure is normalized
to a status-0 response, an `AbortError` rejection is re-thrown as the
timeout error, and a `TypeError` rejection containing `Failed to fetch`
is re-thrown as the CORS/network error. -/
theorem transport_error_normalization_witness :
    (∃ r, (sendRequest sampleGetRequest []
        (.failure ⟨"Error", false, "boom"⟩) 0 7 []).1 = Except.ok r ∧
      r.status = 0 ∧ r.headers = [] ∧ r.size = 0 ∧ r.time = 7 - 0) ∧
    (sendRequest sampleGetRequest []
        (.failure ⟨"AbortError", false, "The user aborted a request."⟩)
        0 7 []).1 = Except.error "Request timeout exceeded" ∧
    (sendRequest sampleGetRequest []
        (.failure ⟨"TypeError", true, "Failed to fetch"⟩) 0 7 []).1 =
      Except.error "CORS policy blocked the request or network error occurred" :=
  ⟨(transport_error_normalization sampleGetRequest []
        (.failure ⟨"Error", false, "boom"⟩) 0 7 []).2.1
      ⟨"Error", false, "boom"⟩ rfl (by decide),
    (transport_error_normalization sampleGetRequest []
        (.failure ⟨"AbortError", false, "The user aborted a request."⟩) 0 7 []).2.2.1
      ⟨"AbortError", false, "The user aborted a request."⟩
      (⟨⟨"https", "//example.com"⟩, []⟩, [], Option.none) rfl rfl rfl,
    (transport_error_normalization sampleGetRequest []
        (.failure ⟨"TypeError", true, "Failed to fetch"⟩) 0 7 []).2.2.2
      ⟨"TypeError", true, "Failed to fetch"⟩
      (⟨⟨"https", "//example.com"⟩, []⟩, [], Option.none) rfl rfl
      (by decide) rfl (by decide)⟩

/-- C2: settling is supposed to unregister the identifier in every path,
but the two re-throw paths of the catch block exit before the delete.  On
a timeout-triggered cancellation the send settles (it throws the timeout
error) while the identifier stays registered — `isRequestActive` still
reports it; the success path and the generic-failure path do remove it. -/
theorem registry_entry_leaks_on_rethrow :
    ((sendRequest sampleGetRequest []
        (.failure ⟨"AbortError", false, "The user aborted a request."⟩) 0 5 []).1 =
      Except.error "Request timeout exceeded" ∧
      (sendRequest sampleGetRequest []
          (.failure ⟨"AbortError", false, "The user aborted a request."⟩) 0 5 []).2 =
        ["req-1"] ∧
      isRequestActive "req-1"
        ((sendRequest sampleGetRequest []
            (.failure ⟨"AbortError", false, "The user aborted a request."⟩)
            0 5 []).2) = true) ∧
    (sendRequest sampleGetRequest [] (.success 200 "OK" [] "") 0 5 []).2 = [] ∧
    (sendRequest sampleGetRequest [] (.failure ⟨"Error", false, "boom"⟩) 0 5 []).2 = [] :=
  ⟨⟨rfl, rfl, rfl⟩, rfl, rfl⟩

end ApiSandbox
